import Mathlib

/-!
Verification development for a blog-platform content-management backend.

The development shallowly embeds the document models (Post, Category,
Comment), their pre-save lifecycle hooks, and the REST route handlers
(posts, categories, comments) as executable Lean functions, and proves
the documented lifecycle and routing properties about them.

Strings are modelled as Lean `String` (lists of characters); JavaScript
`substring` counts are character counts (the documents are ASCII-level
text).  Database object ids are modelled as naturals; timestamps as
naturals (milliseconds).  A document store is a list of documents.
-/

/-- Whitespace characters recognised by the JS `\s` class (ASCII fragment). -/
def isWsChar (c : Char) : Bool :=
  c = ' ' || c = '\t' || c = '\n' || c = '\r'

/-- ASCII alphanumeric test, the `[A-Za-z0-9]` class. -/
def isAlphaNumChar (c : Char) : Bool :=
  ('A' ≤ c && c ≤ 'Z') || ('a' ≤ c && c ≤ 'z') || ('0' ≤ c && c ≤ '9')

/-- ASCII lower-casing of one character, as `String.prototype.toLowerCase`. -/
def lowerChar (c : Char) : Char :=
  if 'A' ≤ c ∧ c ≤ 'Z' then Char.ofNat (c.toNat + 32) else c

/-- Characters matched by the slug-generation `remove` regex
`[*+~.()'"!:@]` passed to the slugify library in both pre-save hooks. -/
def slugRemoveSet : List Char := ['*', '+', '~', '.', '(', ')', '\'', '\"', '!', ':', '@']

/-- Per-character map of the slugify library (ASCII fragment of its charMap). -/
def slugCharMap (c : Char) : List Char :=
  if c = '$' then "dollar".data
  else if c = '%' then "percent".data
  else if c = '&' then "and".data
  else if c = '<' then "less".data
  else if c = '>' then "greater".data
  else if c = '|' then "or".data
  else [c]

/-- One reduction step of the slugify library: map the character, turn a
character equal to the replacement `-` into a space, then delete the
characters matched by the `remove` regex. -/
def slugStep (c : Char) : List Char :=
  let mapped := slugCharMap c
  let mapped := if mapped = ['-'] then [' '] else mapped
  mapped.filter (fun d => !slugRemoveSet.contains d)

/-- Drop leading and trailing JS whitespace, as `String.prototype.trim`. -/
def trimWs (l : List Char) : List Char :=
  ((l.dropWhile isWsChar).reverse.dropWhile isWsChar).reverse

/-- Replace every maximal whitespace run by a single `-`, as the
`replace(/\s+/g, replacement)` step of the slugify library. -/
def collapseWsAux (prevWs : Bool) : List Char → List Char
  | [] => []
  | c :: rest =>
    if isWsChar c then
      (if prevWs then [] else ['-']) ++ collapseWsAux true rest
    else
      c :: collapseWsAux false rest

/-- The slugify library with the options used by both pre-save hooks:
lower-case, strict (keep only alphanumerics and whitespace), and the
remove set `[*+~.()'"!:@]`. -/
def slugify (s : String) : String :=
  let mapped := (s.data.map slugStep).flatten
  let strict := mapped.filter (fun c => isAlphaNumChar c || isWsChar c)
  let collapsed := collapseWsAux false (trimWs strict)
  String.mk (collapsed.map lowerChar)

/-- Last four characters of the decimal representation of a timestamp,
as `Date.now().toString().slice(-4)` in the Post slug hook. -/
def last4 (n : Nat) : String :=
  let d := (Nat.repr n).data
  String.mk (d.drop (d.length - 4))

/-- Scan for the first `>` and return the remainder after it, or `none`
when no `>` occurs.  Helper for the HTML-tag-strip regex. -/
def dropTag : List Char → Option (List Char)
  | [] => none
  | c :: rest => if c = '>' then some rest else dropTag rest

/-- Fuel-indexed worker for `stripHtml`; each step consumes at least one
character, so fuel equal to the list length always suffices. -/
def stripHtmlAux : Nat → List Char → List Char
  | 0, l => l
  | _ + 1, [] => []
  | fuel + 1, c :: rest =>
    if c = '<' then
      match dropTag rest with
      | some rest' => stripHtmlAux fuel rest'
      | none => c :: stripHtmlAux fuel rest
    else
      c :: stripHtmlAux fuel rest

/-- Delete every match of the JS regex `/<[^>]*>/g`: a `<`, a maximal
run of non-`>` characters, then a `>`.  A `<` with no later `>` is kept,
exactly as the regex leaves it unmatched. -/
def stripHtml (l : List Char) : List Char :=
  stripHtmlAux l.length l

/-- Number of maximal whitespace runs in a character list; `prevWs`
records whether the previous character was whitespace. -/
def wsRunsAux (prevWs : Bool) : List Char → Nat
  | [] => 0
  | c :: rest =>
    (if isWsChar c && !prevWs then 1 else 0) + wsRunsAux (isWsChar c) rest

/-- Length of `s.split(/\s+/)` in JS: one more than the number of
maximal whitespace runs (leading/trailing runs produce empty tokens,
which JS keeps). -/
def jsWordCount (s : String) : Nat :=
  wsRunsAux false s.data + 1

/-- Ceiling division on naturals, as `Math.ceil(a / b)` for nonnegative
integers with positive divisor. -/
def ceilDiv (a b : Nat) : Nat :=
  (a + b - 1) / b

/-- First `n` characters of a string, as `substring(0, n)` in JS. -/
def strTake (n : Nat) (s : String) : String :=
  String.mk (s.data.take n)

/-- The auto-generated excerpt of the Post pre-save hook: strip HTML
tags, keep the first 200 characters, append an ellipsis when the plain
text was longer than 200 characters. -/
def autoExcerpt (content : String) : String :=
  let plainText := stripHtml content.data
  String.mk (plainText.take 200 ++ (if plainText.length > 200 then "...".data else []))

/-- Post status enumeration. -/
inductive Status where
  | draft
  | published
  | archived
deriving DecidableEq, Repr

/-- SEO metadata block shared by Post and Category; an empty string
models an absent field (both are falsy to the hooks). -/
structure Seo where
  metaTitle : String := ""
  metaDescription : String := ""
  metaKeywords : List String := []
deriving DecidableEq, Repr

/-- The Post document, restricted to the fields the hooks and routes
read or write. -/
structure Post where
  id : Nat
  title : String
  slug : String := ""
  content : String
  excerpt : String := ""
  category : Nat
  tags : List String := []
  author : Nat
  status : Status := Status.draft
  publishedAt : Option Nat := none
  scheduledFor : Option Nat := none
  views : Nat := 0
  likes : Nat := 0
  readingTime : Nat := 0
  seo : Seo := {}
  contentType : String := "markdown"
  featuredImage : String := ""
  affiliateLinks : List String := []
  adSenseEnabled : Bool := true
  commentsEnabled : Bool := true
  createdAt : Nat := 0
deriving DecidableEq, Repr

/-- Which hook-relevant paths mongoose reports as modified on a save. -/
structure Modified where
  title : Bool
  content : Bool
  status : Bool
deriving DecidableEq, Repr

/-- Slug block of the Post pre-save hook: regenerate the slug when the
title is modified or the document is new; append `-` and the last four
timestamp digits on creation only. -/
def postSlugSaveStep (p : Post) (m : Modified) (isNew : Bool) (now : Nat) : Post :=
  { p with slug :=
      if m.title || isNew then
        (if isNew then slugify p.title ++ "-" ++ last4 now else slugify p.title)
      else p.slug }

/-- Excerpt block of the Post pre-save hook: auto-derive the excerpt
when the content is modified and the excerpt is empty. -/
def postExcerptStep (p : Post) (m : Modified) : Post :=
  { p with excerpt :=
      if m.content && decide (p.excerpt = "") then autoExcerpt p.content else p.excerpt }

/-- Reading-time block of the Post pre-save hook: recompute when the
content is modified. -/
def postReadingTimeStep (p : Post) (m : Modified) : Post :=
  { p with readingTime :=
      if m.content then ceilDiv (jsWordCount p.content) 200 else p.readingTime }

/-- Publish-timestamp block of the Post pre-save hook: set publishedAt
to the current time when the status is modified, equals published, and
publishedAt is unset. -/
def postPublishStep (p : Post) (m : Modified) (now : Nat) : Post :=
  { p with publishedAt :=
      if m.status && decide (p.status = Status.published) && decide (p.publishedAt = none) then
        some now
      else p.publishedAt }

/-- SEO metaTitle block of the Post pre-save hook: fill with the first
60 characters of the title when absent. -/
def postSeoTitleStep (p : Post) : Post :=
  { p with seo := { p.seo with metaTitle :=
      if p.seo.metaTitle = "" then strTake 60 p.title else p.seo.metaTitle } }

/-- SEO metaDescription block of the Post pre-save hook: fill with the
excerpt, or the first 160 characters of the content when the excerpt is
empty, when absent. -/
def postSeoDescStep (p : Post) : Post :=
  { p with seo := { p.seo with metaDescription :=
      if p.seo.metaDescription = "" then
        (if p.excerpt ≠ "" then p.excerpt else strTake 160 p.content)
      else p.seo.metaDescription } }

/-- The Post pre-save hook: slug generation (with a timestamp suffix on
creation only), excerpt auto-derivation, reading-time computation,
publish-timestamp setting, and SEO auto-fill, in source order. -/
def postPreSave (p : Post) (m : Modified) (isNew : Bool) (now : Nat) : Post :=
  postSeoDescStep (postSeoTitleStep (postPublishStep
    (postReadingTimeStep (postExcerptStep (postSlugSaveStep p m isNew now) m) m) m now))

/-- The Category document, restricted to the fields the hook and routes
read or write. -/
structure Category where
  id : Nat
  name : String
  slug : String := ""
  description : String := ""
  color : String := "#3B82F6"
  icon : String := "folder"
  image : Option String := none
  parentCategory : Option Nat := none
  isActive : Bool := true
  sortOrder : Nat := 0
  seo : Seo := {}
  postCount : Nat := 0
  totalViews : Nat := 0
deriving DecidableEq, Repr

/-- Slug block of the Category pre-save hook: regenerate the slug when
the name is modified or the document is new (no timestamp suffix). -/
def catSlugStep (c : Category) (nameModified isNew : Bool) : Category :=
  { c with slug := if nameModified || isNew then slugify c.name else c.slug }

/-- SEO metaTitle block of the Category pre-save hook: fill with the
name (verbatim) when absent. -/
def catSeoTitleStep (c : Category) : Category :=
  { c with seo := { c.seo with metaTitle :=
      if c.seo.metaTitle = "" then c.name else c.seo.metaTitle } }

/-- SEO metaDescription block of the Category pre-save hook: fill with
the first 160 characters of the description when absent and the
description is non-empty. -/
def catSeoDescStep (c : Category) : Category :=
  { c with seo := { c.seo with metaDescription :=
      if c.seo.metaDescription = "" ∧ c.description ≠ "" then strTake 160 c.description
      else c.seo.metaDescription } }

/-- The Category pre-save hook: slug generation and SEO auto-fill, in
source order. -/
def categoryPreSave (c : Category) (nameModified isNew : Bool) : Category :=
  catSeoDescStep (catSeoTitleStep (catSlugStep c nameModified isNew))

/-- The document store: one collection of posts and one of categories. -/
structure DB where
  posts : List Post
  categories : List Category
deriving DecidableEq, Repr

/-- Partial-update body of PUT /api/posts/:id; `none` models a field
absent from the request body (`req.body[field] === undefined`).  The
fields are exactly the route's `updateFields` allow-list. -/
structure PostUpdate where
  title : Option String := none
  content : Option String := none
  excerpt : Option String := none
  category : Option Nat := none
  tags : Option (List String) := none
  status : Option Status := none
  featuredImage : Option String := none
  seo : Option Seo := none
  contentType : Option String := none
  scheduledFor : Option (Option Nat) := none
  affiliateLinks : Option (List String) := none
  adSenseEnabled : Option Bool := none
  commentsEnabled : Option Bool := none
deriving Repr

/-- Apply the allow-listed fields of the update body to the document,
as the `updateFields.forEach` loop of PUT /api/posts/:id.  Fields
outside the allow-list (id, slug, author, publishedAt, views, likes,
readingTime) are untouched by construction. -/
def applyPostUpdate (p : Post) (u : PostUpdate) : Post :=
  { p with
    title := u.title.getD p.title
    content := u.content.getD p.content
    excerpt := u.excerpt.getD p.excerpt
    category := u.category.getD p.category
    tags := u.tags.getD p.tags
    status := u.status.getD p.status
    featuredImage := u.featuredImage.getD p.featuredImage
    seo := u.seo.getD p.seo
    contentType := u.contentType.getD p.contentType
    scheduledFor := u.scheduledFor.getD p.scheduledFor
    affiliateLinks := u.affiliateLinks.getD p.affiliateLinks
    adSenseEnabled := u.adSenseEnabled.getD p.adSenseEnabled
    commentsEnabled := u.commentsEnabled.getD p.commentsEnabled }

/-- Modified-path flags mongoose reports after the update loop: a path
is modified when the body supplies a value different from the stored
one. -/
def updModified (p : Post) (u : PostUpdate) : Modified :=
  { title := u.title.any (fun t => t ≠ p.title)
    content := u.content.any (fun c => c ≠ p.content)
    status := u.status.any (fun s => s ≠ p.status) }

/-- Body validation of PUT /api/posts/:id (express-validator): optional
title at most 200 characters, optional excerpt at most 500. -/
def validatePostUpdate (u : PostUpdate) : Bool :=
  u.title.all (fun t => t.data.length ≤ 200) && u.excerpt.all (fun e => e.data.length ≤ 500)

/-- Result of PUT /api/posts/:id. -/
inductive UpdateResult where
  | validationFailed
  | notFound
  | invalidCategory
  | updated (p : Post)
deriving DecidableEq, Repr

/-- Replace the post with the given id in the store. -/
def storePost (db : DB) (p : Post) : DB :=
  { db with posts := db.posts.map (fun q => if q.id = p.id then p else q) }

/-- PUT /api/posts/:id — validate the body, fetch the post, verify a
supplied category id exists, apply the allow-listed fields, and save
(running the pre-save hook with isNew = false). -/
def putPost (db : DB) (id : Nat) (u : PostUpdate) (now : Nat) : DB × UpdateResult :=
  if !validatePostUpdate u then (db, UpdateResult.validationFailed)
  else
    match db.posts.find? (fun p => p.id = id) with
    | none => (db, UpdateResult.notFound)
    | some post =>
      if u.category.any (fun c => (db.categories.find? (fun cat => cat.id = c)).isNone) then
        (db, UpdateResult.invalidCategory)
      else
        let saved := postPreSave (applyPostUpdate post u) (updModified post u) false now
        (storePost db saved, UpdateResult.updated saved)

/-- Creation body of POST /api/posts. -/
structure NewPostBody where
  title : String
  content : String
  excerpt : Option String := none
  category : Nat
  tags : Option (List String) := none
  status : Option Status := none
  featuredImage : Option String := none
  seo : Option Seo := none
  contentType : Option String := none
  scheduledFor : Option Nat := none
  affiliateLinks : Option (List String) := none
  adSenseEnabled : Option Bool := none
  commentsEnabled : Option Bool := none
deriving Repr

/-- Body validation of POST /api/posts: non-empty title of at most 200
characters (the validator also trims it), non-empty content, optional
excerpt of at most 500 characters. -/
def validateNewPost (b : NewPostBody) : Bool :=
  let t := trimWs b.title.data
  !t.isEmpty && t.length ≤ 200 && !(b.content = "") && b.excerpt.all (fun e => e.data.length ≤ 500)

/-- Result of POST /api/posts. -/
inductive CreateResult where
  | validationFailed
  | invalidCategory
  | created (p : Post)
deriving DecidableEq, Repr

/-- POST /api/posts — validate, verify the category exists, build the
document (constructor defaults as in the route), and save it with
isNew = true; all hook-relevant constructor-set paths are modified. -/
def createPost (db : DB) (b : NewPostBody) (newId authorId now : Nat) : DB × CreateResult :=
  if !validateNewPost b then (db, CreateResult.validationFailed)
  else if (db.categories.find? (fun cat => cat.id = b.category)).isNone then
    (db, CreateResult.invalidCategory)
  else
    let doc : Post :=
      { id := newId
        title := String.mk (trimWs b.title.data)
        content := b.content
        excerpt := b.excerpt.getD ""
        category := b.category
        tags := b.tags.getD []
        author := authorId
        status := b.status.getD Status.draft
        featuredImage := b.featuredImage.getD ""
        seo := b.seo.getD {}
        contentType := b.contentType.getD "markdown"
        scheduledFor := b.scheduledFor
        affiliateLinks := b.affiliateLinks.getD []
        adSenseEnabled := b.adSenseEnabled.getD true
        commentsEnabled := b.commentsEnabled.getD true
        createdAt := now }
    let saved := postPreSave doc { title := true, content := true, status := true } true now
    ({ db with posts := db.posts ++ [saved] }, CreateResult.created saved)

/-- Result of DELETE /api/categories/:id, with the HTTP status the
route answers in each case. -/
inductive DeleteCatResult where
  | notFound
  | hasPosts (n : Nat)
  | hasSubcategories (n : Nat)
  | deleted
deriving DecidableEq, Repr

/-- HTTP status code of each DELETE /api/categories/:id outcome. -/
def DeleteCatResult.statusCode : DeleteCatResult → Nat
  | DeleteCatResult.notFound => 404
  | DeleteCatResult.hasPosts _ => 400
  | DeleteCatResult.hasSubcategories _ => 400
  | DeleteCatResult.deleted => 200

/-- DELETE /api/categories/:id — fetch the category, count posts that
reference it (any status), count subcategories, and delete only when
both counts are zero; the two failing checks answer before any
mutation. -/
def deleteCategory (db : DB) (cid : Nat) : DB × DeleteCatResult :=
  match db.categories.find? (fun c => c.id = cid) with
  | none => (db, DeleteCatResult.notFound)
  | some c =>
    let postCount := (db.posts.filter (fun p => p.category = c.id)).length
    if postCount > 0 then (db, DeleteCatResult.hasPosts postCount)
    else
      let subcategoryCount := (db.categories.filter (fun k => k.parentCategory = some c.id)).length
      if subcategoryCount > 0 then (db, DeleteCatResult.hasSubcategories subcategoryCount)
      else
        ({ db with categories := db.categories.filter (fun k => !(k.id = cid)) },
         DeleteCatResult.deleted)

/-- A comment document. -/
structure Comment where
  id : Nat
  postId : Nat
  author : String
  email : String
  content : String
  parentId : Option Nat := none
  isApproved : Bool := false
  createdAt : Nat := 0
deriving DecidableEq, Repr

/-- The caller of a request as the routes see it: whether an
authentication middleware has established an identity, and whether that
identity has the admin role. -/
structure Caller where
  authenticated : Bool
  isAdmin : Bool
deriving DecidableEq, Repr

/-- A guard middleware either lets the request through (`none`) or
aborts it with an HTTP status code. -/
def Guard : Type := Caller → Option Nat

/-- Modelled from the spec: the externally-supplied authentication
check (`auth` in middleware/auth.js, which is not part of the sources);
it aborts with 401 unless the caller is authenticated. -/
def authGuard : Guard := fun c => if c.authenticated then none else some 401

/-- Modelled from the spec: the externally-supplied admin-authorization
check (`adminAuth` in middleware/auth.js, which is not part of the
sources); it aborts with 403 unless the caller is an admin. -/
def adminAuthGuard : Guard := fun c => if c.isAdmin then none else some 403

/-- Run a route's guard chain: the first aborting guard wins. -/
def runGuards (guards : List Guard) (caller : Caller) : Option Nat :=
  guards.findSome? (fun g => g caller)

/-- Result of the comment moderation routes. -/
inductive CommentModResult where
  | aborted (code : Nat)
  | notFound
  | ok (c : Comment)
  | deleted
deriving DecidableEq, Repr

/-- Handler of PUT /api/comments/:id/approve: findByIdAndUpdate with
isApproved = true, returning the updated document. -/
def approveCommentHandler (id : Nat) (db : List Comment) : List Comment × CommentModResult :=
  match db.find? (fun c => c.id = id) with
  | none => (db, CommentModResult.notFound)
  | some c =>
    (db.map (fun k => if k.id = id then { k with isApproved := true } else k),
     CommentModResult.ok { c with isApproved := true })

/-- Guard chain of PUT /api/comments/:id/approve as mounted in the
comments router: the route registers no middleware before the handler. -/
def approveCommentGuards : List Guard := []

/-- PUT /api/comments/:id/approve: run the route's guard chain, then
the handler. -/
def approveCommentRoute (caller : Caller) (db : List Comment) (id : Nat) :
    List Comment × CommentModResult :=
  match runGuards approveCommentGuards caller with
  | some code => (db, CommentModResult.aborted code)
  | none => approveCommentHandler id db

/-- Handler of DELETE /api/comments/:id: findByIdAndDelete. -/
def deleteCommentHandler (id : Nat) (db : List Comment) : List Comment × CommentModResult :=
  match db.find? (fun c => c.id = id) with
  | none => (db, CommentModResult.notFound)
  | some _ =>
    (db.filter (fun k => !(k.id = id)), CommentModResult.deleted)

/-- Guard chain of DELETE /api/comments/:id as mounted in the comments
router: the route registers no middleware before the handler. -/
def deleteCommentGuards : List Guard := []

/-- DELETE /api/comments/:id: run the route's guard chain, then the
handler. -/
def deleteCommentRoute (caller : Caller) (db : List Comment) (id : Nat) :
    List Comment × CommentModResult :=
  match runGuards deleteCommentGuards caller with
  | some code => (db, CommentModResult.aborted code)
  | none => deleteCommentHandler id db

/-- Insertion step of a stable insertion sort by a Boolean order. -/
def insertBy (le : α → α → Bool) (x : α) : List α → List α
  | [] => [x]
  | y :: ys => if le x y then x :: y :: ys else y :: insertBy le x ys

/-- Stable insertion sort by a Boolean order; models the store's sort
stage of a query. -/
def sortBy (le : α → α → Bool) : List α → List α
  | [] => []
  | x :: xs => insertBy le x (sortBy le xs)

/-- GET /api/comments/:postId: the approved comments of the post,
newest first. -/
def getComments (db : List Comment) (pid : Nat) : List Comment :=
  sortBy (fun a b => decide (b.createdAt ≤ a.createdAt))
    (db.filter (fun c => c.postId = pid && c.isApproved))

/-- Creation body of POST /api/comments; an absent postId is `none`,
and empty strings model absent/empty text fields (both falsy to the
route's check). -/
structure NewCommentBody where
  postId : Option Nat := none
  author : String := ""
  email : String := ""
  content : String := ""
  parentId : Option Nat := none
deriving Repr

/-- Result of POST /api/comments. -/
inductive CreateCommentResult where
  | validationFailed
  | created (c : Comment)
deriving DecidableEq, Repr

/-- POST /api/comments: reject when any required field is falsy, else
store a new comment with isApproved = false. -/
def createComment (db : List Comment) (b : NewCommentBody) (newId now : Nat) :
    List Comment × CreateCommentResult :=
  match b.postId with
  | none => (db, CreateCommentResult.validationFailed)
  | some pid =>
    if b.author = "" || b.email = "" || b.content = "" then
      (db, CreateCommentResult.validationFailed)
    else
      let c : Comment :=
        { id := newId, postId := pid, author := b.author, email := b.email,
          content := b.content, parentId := b.parentId, isApproved := false,
          createdAt := now }
      (db ++ [c], CreateCommentResult.created c)

/-- JS `parseInt(x) || d`: an absent parameter or a parse to 0 (falsy)
yields the default. -/
def jsOrDefault (o : Option Nat) (d : Nat) : Nat :=
  match o with
  | none => d
  | some n => if n = 0 then d else n

/-- Split a character list at commas, as `tags.split(',')`. -/
def splitComma : List Char → List (List Char)
  | [] => [[]]
  | c :: rest =>
    match splitComma rest with
    | [] => [[]]
    | grp :: grps => if c = ',' then [] :: grp :: grps else (c :: grp) :: grps

/-- The tag filter array: split the parameter at commas, trim each
token, lower-case it. -/
def tagArrayOf (tags : String) : List String :=
  (splitComma tags.data).map (fun t => String.mk ((trimWs t).map lowerChar))

/-- Whether `nee` occurs at the start of `hay`. -/
def startsWithList : List Char → List Char → Bool
  | _, [] => true
  | [], _ :: _ => false
  | a :: as, b :: bs => a = b && startsWithList as bs

/-- Whether `nee` occurs anywhere inside `hay`. -/
def containsList (hay nee : List Char) : Bool :=
  match hay with
  | [] => nee.isEmpty
  | _ :: rest => startsWithList hay nee || containsList rest nee

/-- Case-insensitive substring test, as an `i`-flagged regex built from
a literal search string. -/
def containsCI (hay pat : String) : Bool :=
  containsList (hay.data.map lowerChar) (pat.data.map lowerChar)

/-- Query parameters of GET /api/posts, post-parse: numbers are the
parsed integer values, strings are passed through. -/
structure PostsQuery where
  page : Option Nat := none
  limit : Option Nat := none
  category : Option Nat := none
  tags : Option String := none
  search : Option String := none
  sort : Option String := none
deriving Repr

/-- express-validator chain of GET /api/posts: optional page ≥ 1,
optional limit in [1, 50], optional sort from the public enumeration
(category/tags/search checks hold trivially in this model). -/
def validatePostsQuery (q : PostsQuery) : Bool :=
  q.page.all (fun n => 1 ≤ n) &&
  q.limit.all (fun n => 1 ≤ n && n ≤ 50) &&
  q.sort.all (fun s => ["latest", "oldest", "popular", "trending"].contains s)

/-- One week in milliseconds, as `7 * 24 * 60 * 60 * 1000`. -/
def oneWeekMs : Nat := 7 * 24 * 60 * 60 * 1000

/-- The store filter GET /api/posts builds: published status, optional
category, optional any-tag match, optional case-insensitive search over
title/content/excerpt/tags, and a trailing-week publishedAt bound when
the sort is trending.  Empty-string parameters are falsy to the route
and add no filter. -/
def publicPostMatches (q : PostsQuery) (now : Nat) (p : Post) : Bool :=
  decide (p.status = Status.published) &&
  (match q.category with
   | some c => decide (p.category = c)
   | none => true) &&
  (match q.tags with
   | some t => t = "" || (tagArrayOf t).any (fun tg => p.tags.contains tg)
   | none => true) &&
  (match q.search with
   | some s =>
     s = "" ||
     (containsCI p.title s || containsCI p.content s || containsCI p.excerpt s ||
      p.tags.any (fun tg => containsCI tg s))
   | none => true) &&
  (if q.sort = some "trending" then p.publishedAt.any (fun t => now - oneWeekMs ≤ t)
   else true)

/-- Sort order of GET /api/posts for each sort key (default latest):
oldest = publishedAt ascending, popular/trending = views then likes
descending, latest = publishedAt descending. -/
def publicSortLe (sort : String) (a b : Post) : Bool :=
  if sort = "oldest" then decide (a.publishedAt.getD 0 ≤ b.publishedAt.getD 0)
  else if sort = "popular" || sort = "trending" then
    decide (b.views < a.views) || (decide (a.views = b.views) && decide (b.likes ≤ a.likes))
  else decide (b.publishedAt.getD 0 ≤ a.publishedAt.getD 0)

/-- The pagination object of every list response. -/
structure Pagination where
  currentPage : Nat
  totalPages : Nat
  totalPosts : Nat
  hasNextPage : Bool
  hasPrevPage : Bool
  limit : Nat
deriving DecidableEq, Repr

/-- Result of a paginated post-list route. -/
inductive ListResult where
  | validationFailed
  | page (posts : List Post) (pagination : Pagination)
deriving DecidableEq, Repr

/-- GET /api/posts — validate, default page/limit, build filter and
sort, take the requested slice, and compute the pagination object from
the full matching count. -/
def getPosts (db : List Post) (now : Nat) (q : PostsQuery) : ListResult :=
  if !validatePostsQuery q then ListResult.validationFailed
  else
    let page := jsOrDefault q.page 1
    let limit := jsOrDefault q.limit 10
    let skip := (page - 1) * limit
    let sort := q.sort.getD "latest"
    let matching := db.filter (publicPostMatches q now)
    let posts := ((sortBy (publicSortLe sort) matching).drop skip).take limit
    let total := matching.length
    let totalPages := ceilDiv total limit
    ListResult.page posts
      { currentPage := page, totalPages := totalPages, totalPosts := total,
        hasNextPage := decide (page < totalPages), hasPrevPage := decide (page > 1),
        limit := limit }

/-- Query parameters of GET /api/posts/admin, post-parse. -/
structure AdminQuery where
  page : Option Nat := none
  limit : Option Nat := none
  status : Option String := none
  sort : Option String := none
deriving Repr

/-- express-validator chain of GET /api/posts/admin: optional page ≥ 1,
optional limit in [1, 50], optional status and sort from the admin
enumerations. -/
def validateAdminQuery (q : AdminQuery) : Bool :=
  q.page.all (fun n => 1 ≤ n) &&
  q.limit.all (fun n => 1 ≤ n && n ≤ 50) &&
  q.status.all (fun s => ["draft", "published", "archived"].contains s) &&
  q.sort.all (fun s => ["latest", "oldest", "title", "views"].contains s)

/-- Status string of a post document, for the admin status filter. -/
def Status.asString : Status → String
  | Status.draft => "draft"
  | Status.published => "published"
  | Status.archived => "archived"

/-- The store filter GET /api/posts/admin builds: only the optional
status equality (an empty status string is falsy and adds no filter). -/
def adminPostMatches (q : AdminQuery) (p : Post) : Bool :=
  match q.status with
  | some s => s = "" || decide (p.status.asString = s)
  | none => true

/-- Sort order of GET /api/posts/admin for each sort key (default
latest): oldest = createdAt ascending, title = title ascending, views =
views descending, latest = createdAt descending. -/
def adminSortLe (sort : String) (a b : Post) : Bool :=
  if sort = "oldest" then decide (a.createdAt ≤ b.createdAt)
  else if sort = "title" then decide (a.title ≤ b.title)
  else if sort = "views" then decide (b.views ≤ a.views)
  else decide (b.createdAt ≤ a.createdAt)

/-- GET /api/posts/admin — validate, default page/limit, filter by
optional status, sort, slice, and compute the pagination object from
the full matching count. -/
def getAdminPosts (db : List Post) (q : AdminQuery) : ListResult :=
  if !validateAdminQuery q then ListResult.validationFailed
  else
    let page := jsOrDefault q.page 1
    let limit := jsOrDefault q.limit 10
    let skip := (page - 1) * limit
    let sort := q.sort.getD "latest"
    let matching := db.filter (adminPostMatches q)
    let posts := ((sortBy (adminSortLe sort) matching).drop skip).take limit
    let total := matching.length
    let totalPages := ceilDiv total limit
    ListResult.page posts
      { currentPage := page, totalPages := totalPages, totalPosts := total,
        hasNextPage := decide (page < totalPages), hasPrevPage := decide (page > 1),
        limit := limit }

/-- Result of GET /api/categories/:slug/posts. -/
inductive CatListResult where
  | notFound
  | page (posts : List Post) (pagination : Pagination)
deriving DecidableEq, Repr

/-- GET /api/categories/:slug/posts — no parameter validation: page and
limit are parsed with `parseInt(x) || default` and used as supplied;
the route 404s on a missing or inactive category, else filters the
published posts of the category, sorts newest first, slices, and
computes the pagination object from the full matching count. -/
def getCategoryPosts (db : DB) (slug : String) (qpage qlimit : Option Nat) : CatListResult :=
  let page := jsOrDefault qpage 1
  let limit := jsOrDefault qlimit 10
  let skip := (page - 1) * limit
  match db.categories.find? (fun c => c.slug = slug && c.isActive) with
  | none => CatListResult.notFound
  | some cat =>
    let matching := db.posts.filter (fun p =>
      decide (p.category = cat.id) && decide (p.status = Status.published))
    let sorted := sortBy (fun a b => decide (b.publishedAt.getD 0 ≤ a.publishedAt.getD 0)) matching
    let posts := (sorted.drop skip).take limit
    let total := matching.length
    let totalPages := ceilDiv total limit
    CatListResult.page posts
      { currentPage := page, totalPages := totalPages, totalPosts := total,
        hasNextPage := decide (page < totalPages), hasPrevPage := decide (page > 1),
        limit := limit }

/-- Result of POST /api/posts/:id/like: 404, or the response counter. -/
inductive LikeResult where
  | notFound
  | liked (likes : Nat)
deriving DecidableEq, Repr

/-- POST /api/posts/:id/like — fetch the post, apply the atomic
`$inc: likes 1` update to the store, and answer with the fetched
document's counter plus one (not a re-read of the stored value). -/
def likePost (db : List Post) (id : Nat) : List Post × LikeResult :=
  match db.find? (fun p => p.id = id) with
  | none => (db, LikeResult.notFound)
  | some post =>
    (db.map (fun q => if q.id = id then { q with likes := q.likes + 1 } else q),
     LikeResult.liked (post.likes + 1))

/-! Sample documents used by the concrete witnesses. -/

/-- Sample published post referencing category 7, publishedAt set. -/
def pubPost : Post :=
  { id := 1, title := "Hello, World!", content := "Great content", category := 7,
    author := 3, status := Status.published, publishedAt := some 5, slug := "hello-world-0001" }

/-- Sample active category with a stored slug. -/
def sampleCategory : Category := { id := 7, name := "Tech", slug := "tech" }

/-- Sample store holding the post and its category. -/
def sampleDB : DB := { posts := [pubPost], categories := [sampleCategory] }

/-- A 200-character excerpt, longer than the 160-character bound the
spec asserts for the auto-filled metaDescription. -/
def longExcerpt : String := String.mk (List.replicate 200 'a')

/-- Post with a present 200-character excerpt and no SEO fields. -/
def longExcerptPost : Post :=
  { id := 9, title := "T", content := "body", excerpt := longExcerpt, category := 7, author := 3 }

/-- Caller with no established identity (no token supplied). -/
def unauthCaller : Caller := { authenticated := false, isAdmin := false }

/-- Sample unapproved comment awaiting moderation. -/
def sampleComment : Comment :=
  { id := 1, postId := 2, author := "Ann", email := "ann@example.com",
    content := "Nice post", createdAt := 10 }

/-- Pagination object of the concrete C6 witness run. -/
def witnessPagination : Pagination :=
  { currentPage := 1, totalPages := 1, totalPosts := 1, hasNextPage := false,
    hasPrevPage := false, limit := 10 }

/-- The comment stored by the concrete C9 witness run. -/
def witComment : Comment :=
  { id := 5, postId := 2, author := "Ann", email := "a@b.c", content := "hi",
    parentId := none, isApproved := false, createdAt := 10 }

theorem dropTag_length : ∀ (l l' : List Char), dropTag l = some l' → l'.length < l.length := by
  intro l
  induction l with
  | nil => intro l' h; simp [dropTag] at h
  | cons c rest ih =>
    intro l' h
    by_cases hc : c = '>'
    · simp [dropTag, hc] at h
      simp [← h]
    · simp [dropTag, hc] at h
      exact Nat.lt_succ_of_lt (ih l' h)

/-! Projection lemmas for the Post pre-save hook. -/

theorem postPreSave_title (p : Post) (m : Modified) (isNew : Bool) (now : Nat) :
    (postPreSave p m isNew now).title = p.title := by
  simp [postPreSave, postSlugSaveStep, postExcerptStep, postReadingTimeStep, postPublishStep,
    postSeoTitleStep, postSeoDescStep]

theorem postPreSave_content (p : Post) (m : Modified) (isNew : Bool) (now : Nat) :
    (postPreSave p m isNew now).content = p.content := by
  simp [postPreSave, postSlugSaveStep, postExcerptStep, postReadingTimeStep, postPublishStep,
    postSeoTitleStep, postSeoDescStep]

theorem postPreSave_status (p : Post) (m : Modified) (isNew : Bool) (now : Nat) :
    (postPreSave p m isNew now).status = p.status := by
  simp [postPreSave, postSlugSaveStep, postExcerptStep, postReadingTimeStep, postPublishStep,
    postSeoTitleStep, postSeoDescStep]

theorem postPreSave_publishedAt (p : Post) (m : Modified) (isNew : Bool) (now : Nat) :
    (postPreSave p m isNew now).publishedAt =
      if m.status && decide (p.status = Status.published) && decide (p.publishedAt = none) then
        some now
      else p.publishedAt := by
  simp [postPreSave, postSlugSaveStep, postExcerptStep, postReadingTimeStep, postPublishStep,
    postSeoTitleStep, postSeoDescStep]

theorem postPreSave_excerpt (p : Post) (m : Modified) (isNew : Bool) (now : Nat) :
    (postPreSave p m isNew now).excerpt =
      if m.content && decide (p.excerpt = "") then autoExcerpt p.content else p.excerpt := by
  simp [postPreSave, postSlugSaveStep, postExcerptStep, postReadingTimeStep, postPublishStep,
    postSeoTitleStep, postSeoDescStep]

theorem postPreSave_slug (p : Post) (m : Modified) (isNew : Bool) (now : Nat) :
    (postPreSave p m isNew now).slug =
      if m.title || isNew then
        (if isNew then slugify p.title ++ "-" ++ last4 now else slugify p.title)
      else p.slug := by
  simp [postPreSave, postSlugSaveStep, postExcerptStep, postReadingTimeStep, postPublishStep,
    postSeoTitleStep, postSeoDescStep]

theorem postPreSave_metaTitle (p : Post) (m : Modified) (isNew : Bool) (now : Nat) :
    (postPreSave p m isNew now).seo.metaTitle =
      if p.seo.metaTitle = "" then strTake 60 p.title else p.seo.metaTitle := by
  simp [postPreSave, postSlugSaveStep, postExcerptStep, postReadingTimeStep, postPublishStep,
    postSeoTitleStep, postSeoDescStep]

theorem postPreSave_metaDescription (p : Post) (m : Modified) (isNew : Bool) (now : Nat) :
    (postPreSave p m isNew now).seo.metaDescription =
      if p.seo.metaDescription = "" then
        (if (postPreSave p m isNew now).excerpt ≠ "" then (postPreSave p m isNew now).excerpt
         else strTake 160 p.content)
      else p.seo.metaDescription := by
  simp [postPreSave, postSlugSaveStep, postExcerptStep, postReadingTimeStep, postPublishStep,
    postSeoTitleStep, postSeoDescStep]

/-! Projection lemmas for the Category pre-save hook. -/

theorem categoryPreSave_metaTitle (c : Category) (nameModified isNew : Bool) :
    (categoryPreSave c nameModified isNew).seo.metaTitle =
      if c.seo.metaTitle = "" then c.name else c.seo.metaTitle := by
  simp [categoryPreSave, catSlugStep, catSeoTitleStep, catSeoDescStep]

theorem categoryPreSave_metaDescription (c : Category) (nameModified isNew : Bool) :
    (categoryPreSave c nameModified isNew).seo.metaDescription =
      if c.seo.metaDescription = "" ∧ c.description ≠ "" then strTake 160 c.description
      else c.seo.metaDescription := by
  simp [categoryPreSave, catSlugStep, catSeoTitleStep, catSeoDescStep]

/-- C1: the pre-save rule sets publishedAt to the current time exactly
when the status path is modified, the status is published, and
publishedAt is unset; once publishedAt is non-null, neither the hook
nor the allow-listed partial update PUT /api/posts/:id ever changes
it, across arbitrary status toggles. -/
theorem C1_publishedAt_set_exactly_once
    (p : Post) (m : Modified) (isNew : Bool) (now t : Nat)
    (db : DB) (id : Nat) (u : PostUpdate) :
    (p.publishedAt = none →
      ((postPreSave p m isNew now).publishedAt = some now ↔
        m.status = true ∧ p.status = Status.published)) ∧
    (p.publishedAt = some t → (postPreSave p m isNew now).publishedAt = some t) ∧
    (∀ post db' saved, db.posts.find? (fun x => x.id = id) = some post →
      post.publishedAt = some t →
      putPost db id u now = (db', UpdateResult.updated saved) →
      saved.publishedAt = some t) := by
  refine ⟨?_, ?_, ?_⟩
  · intro hnone
    rw [postPreSave_publishedAt]
    cases hms : m.status <;> by_cases hst : p.status = Status.published <;>
      simp [hnone, hms, hst]
  · intro hset
    rw [postPreSave_publishedAt]
    simp [hset]
  · intro post db' saved hfind hpub heq
    unfold putPost at heq
    rw [hfind] at heq
    cases hv : validatePostUpdate u <;> rw [hv] at heq
    · simp at heq
    · cases hcat : u.category.any
          (fun c => (db.categories.find? (fun cat => cat.id = c)).isNone) <;>
        rw [hcat] at heq
      · simp at heq
        have hsaved : saved = postPreSave (applyPostUpdate post u) (updModified post u) false now :=
          heq.2.symm
        rw [hsaved, postPreSave_publishedAt]
        simp [applyPostUpdate, hpub]
      · simp at heq

/-- Witness for C1 at concrete inputs: the hook leaves a set publish
timestamp untouched even on a full-modification save. -/
theorem C1_witness :
    (postPreSave pubPost { title := true, content := true, status := true } false 99).publishedAt =
      some 5 :=
  (C1_publishedAt_set_exactly_once pubPost
    { title := true, content := true, status := true } false 99 5 sampleDB 1 {}).2.1 rfl

/-- C8: the excerpt is auto-derived (tags stripped, 200-character
truncation, ellipsis on truncation — `autoExcerpt`) exactly when the
content is modified and the excerpt is empty; a present excerpt is
never overwritten, whatever happened to the content. -/
theorem C8_excerpt_derivation (p : Post) (m : Modified) (isNew : Bool) (now : Nat) :
    (m.content = true → p.excerpt = "" →
      (postPreSave p m isNew now).excerpt = autoExcerpt p.content) ∧
    (p.excerpt ≠ "" → (postPreSave p m isNew now).excerpt = p.excerpt) ∧
    (m.content = false → (postPreSave p m isNew now).excerpt = p.excerpt) := by
  refine ⟨?_, ?_, ?_⟩
  · intro hm he
    rw [postPreSave_excerpt]
    simp [hm, he]
  · intro he
    rw [postPreSave_excerpt]
    simp [he]
  · intro hm
    rw [postPreSave_excerpt]
    simp [hm]

/-- Witness for C8 at concrete inputs: an empty excerpt is derived from
modified content, and a present excerpt survives a content change. -/
theorem C8_witness :
    (postPreSave { id := 2, title := "T", content := "<p>Hi</p> text", category := 7, author := 3 }
        { title := false, content := true, status := false } false 0).excerpt =
      autoExcerpt "<p>Hi</p> text" ∧
    (postPreSave
        { id := 3, title := "T", content := "c", excerpt := "Summary", category := 7, author := 3 }
        { title := false, content := true, status := false } false 0).excerpt = "Summary" := by
  constructor
  · exact (C8_excerpt_derivation _ _ _ _).1 rfl rfl
  · exact (C8_excerpt_derivation _ _ _ _).2.1 (by decide)

set_option maxRecDepth 4096 in
/-- C2 counterexample: saving a post whose metaDescription is absent
and whose excerpt has 200 characters fills metaDescription with the
whole excerpt, not with the excerpt truncated to 160 characters as the
claim states. -/
theorem C2_counterexample :
    (postPreSave longExcerptPost { title := false, content := false, status := false }
        false 0).seo.metaDescription = longExcerpt ∧
    longExcerpt ≠ strTake 160 longExcerpt := by
  constructor
  · have he : (postPreSave longExcerptPost
        { title := false, content := false, status := false } false 0).excerpt = longExcerpt := by
      rw [postPreSave_excerpt]
      simp [longExcerptPost]
    rw [postPreSave_metaDescription, he]
    have hne : longExcerpt ≠ "" := by
      intro h
      have hl := congrArg (fun s => s.data.length) h
      simp [longExcerpt] at hl
    simp [longExcerptPost, hne]
  · intro h
    have hl := congrArg (fun s => s.data.length) h
    simp [longExcerpt, strTake, List.length_take] at hl

/-- C2 as amended: for a Post, an absent metaTitle is filled with the
title truncated to 60 characters, and an absent metaDescription with
the (possibly just derived) excerpt verbatim — with no 160-character
truncation — falling back to the content truncated to 160 characters
when the excerpt is empty; for a Category, an absent metaTitle is
filled with the name verbatim (equal to its 60-character truncation
whenever the name has at most 60 characters, which the 50-character
name validation guarantees), and an absent metaDescription with the
description truncated to 160 characters when the description is
non-empty; fields already set are never overwritten. -/
theorem C2_seo_autofill (p : Post) (m : Modified) (isNew : Bool) (now : Nat)
    (c : Category) (nameModified cIsNew : Bool) :
    (p.seo.metaTitle = "" → (postPreSave p m isNew now).seo.metaTitle = strTake 60 p.title) ∧
    (p.seo.metaTitle ≠ "" → (postPreSave p m isNew now).seo.metaTitle = p.seo.metaTitle) ∧
    (p.seo.metaDescription = "" → (postPreSave p m isNew now).excerpt ≠ "" →
      (postPreSave p m isNew now).seo.metaDescription = (postPreSave p m isNew now).excerpt) ∧
    (p.seo.metaDescription = "" → (postPreSave p m isNew now).excerpt = "" →
      (postPreSave p m isNew now).seo.metaDescription = strTake 160 p.content) ∧
    (p.seo.metaDescription ≠ "" →
      (postPreSave p m isNew now).seo.metaDescription = p.seo.metaDescription) ∧
    (c.seo.metaTitle = "" → (categoryPreSave c nameModified cIsNew).seo.metaTitle = c.name) ∧
    (c.seo.metaTitle = "" → c.name.data.length ≤ 60 →
      (categoryPreSave c nameModified cIsNew).seo.metaTitle = strTake 60 c.name) ∧
    (c.seo.metaTitle ≠ "" →
      (categoryPreSave c nameModified cIsNew).seo.metaTitle = c.seo.metaTitle) ∧
    (c.seo.metaDescription = "" → c.description ≠ "" →
      (categoryPreSave c nameModified cIsNew).seo.metaDescription = strTake 160 c.description) ∧
    (c.seo.metaDescription ≠ "" →
      (categoryPreSave c nameModified cIsNew).seo.metaDescription = c.seo.metaDescription) := by
  refine ⟨?_, ?_, ?_, ?_, ?_, ?_, ?_, ?_, ?_, ?_⟩
  · intro h
    rw [postPreSave_metaTitle]
    simp [h]
  · intro h
    rw [postPreSave_metaTitle]
    simp [h]
  · intro h he
    rw [postPreSave_metaDescription]
    simp [h, he]
  · intro h he
    rw [postPreSave_metaDescription]
    simp [h, he]
  · intro h
    rw [postPreSave_metaDescription]
    simp [h]
  · intro h
    rw [categoryPreSave_metaTitle]
    simp [h]
  · intro h hlen
    rw [categoryPreSave_metaTitle]
    simp [h, strTake, List.take_of_length_le hlen]
  · intro h
    rw [categoryPreSave_metaTitle]
    simp [h]
  · intro h hd
    rw [categoryPreSave_metaDescription]
    simp [h, hd]
  · intro h
    rw [categoryPreSave_metaDescription]
    simp [h]

/-- Witness for the amended C2 at concrete inputs: absent SEO fields
are filled from the title and the name. -/
theorem C2_witness :
    (postPreSave pubPost { title := false, content := false, status := false } false 0).seo.metaTitle =
      strTake 60 pubPost.title ∧
    (categoryPreSave sampleCategory false false).seo.metaTitle = sampleCategory.name :=
  ⟨(C2_seo_autofill pubPost { title := false, content := false, status := false } false 0
      sampleCategory false false).1 rfl,
   (C2_seo_autofill pubPost { title := false, content := false, status := false } false 0
      sampleCategory false false).2.2.2.2.2.1 rfl⟩

/-- C3 failing input: the comments router mounts PUT /:id/approve and
DELETE /:id with an empty guard chain, so an unauthenticated,
non-admin caller approves and deletes comments successfully — while
the spec-modelled admin check would have aborted that caller with
403.  This contradicts the claim (and the router's own access
annotations). -/
theorem C3_moderation_not_admin_gated :
    approveCommentRoute unauthCaller [sampleComment] 1 =
      ([{ sampleComment with isApproved := true }],
        CommentModResult.ok { sampleComment with isApproved := true }) ∧
    deleteCommentRoute unauthCaller [sampleComment] 1 = ([], CommentModResult.deleted) ∧
    adminAuthGuard unauthCaller = some 403 := by
  refine ⟨?_, ?_, ?_⟩ <;> decide

/-- C4: the slug stored by POST /api/posts equals the slugified stored
title followed by a dash and the last four digits of the creation
timestamp; a later save regenerates the slug from the title without a
new suffix exactly when the title is modified, and leaves it unchanged
otherwise. -/
theorem C4_slug_derivation (db : DB) (b : NewPostBody) (newId authorId now : Nat)
    (p : Post) (m : Modified) (now2 : Nat) :
    (validateNewPost b = true →
      (db.categories.find? (fun cat => cat.id = b.category)).isSome = true →
      ∃ saved, createPost db b newId authorId now =
          ({ db with posts := db.posts ++ [saved] }, CreateResult.created saved) ∧
        saved.title = String.mk (trimWs b.title.data) ∧
        saved.slug = slugify saved.title ++ "-" ++ last4 now) ∧
    (m.title = true → (postPreSave p m false now2).slug = slugify p.title) ∧
    (m.title = false → (postPreSave p m false now2).slug = p.slug) := by
  refine ⟨?_, ?_, ?_⟩
  · intro hv hcat
    cases hfind : db.categories.find? (fun cat => cat.id = b.category) with
    | none =>
      rw [hfind] at hcat
      simp at hcat
    | some cat0 =>
      unfold createPost
      rw [hv, hfind]
      simp only [Bool.not_true, Bool.false_eq_true, if_false, Option.isNone_some]
      refine ⟨_, rfl, ?_, ?_⟩
      · rw [postPreSave_title]
      · rw [postPreSave_slug, postPreSave_title]
        simp
  · intro hm
    rw [postPreSave_slug]
    simp [hm]
  · intro hm
    rw [postPreSave_slug]
    simp [hm]

/-- Witness for C4 at concrete inputs: creation appends the timestamp
suffix; a title-modifying save regenerates without a suffix; a save
without a title change keeps the slug. -/
theorem C4_witness :
    (∃ saved, createPost sampleDB { title := " Hello, World! ", content := "c", category := 7 }
          2 3 1234 =
        ({ sampleDB with posts := sampleDB.posts ++ [saved] }, CreateResult.created saved) ∧
      saved.title = String.mk (trimWs " Hello, World! ".data) ∧
      saved.slug = slugify saved.title ++ "-" ++ last4 1234) ∧
    (postPreSave pubPost { title := true, content := false, status := false } false 7).slug =
      slugify pubPost.title ∧
    (postPreSave pubPost { title := false, content := false, status := false } false 7).slug =
      pubPost.slug :=
  ⟨(C4_slug_derivation sampleDB { title := " Hello, World! ", content := "c", category := 7 }
      2 3 1234 pubPost { title := true, content := false, status := false } 7).1
      (by decide) (by decide),
   (C4_slug_derivation sampleDB { title := " Hello, World! ", content := "c", category := 7 }
      2 3 1234 pubPost { title := true, content := false, status := false } 7).2.1 rfl,
   (C4_slug_derivation sampleDB { title := " Hello, World! ", content := "c", category := 7 }
      2 3 1234 pubPost { title := false, content := false, status := false } 7).2.2 rfl⟩

/-- C5: DELETE /api/categories/:id on an existing category answers 400
and mutates nothing while the category has referencing posts or
subcategories; the delete executes only when both counts are zero, and
then removes exactly that category. -/
theorem C5_delete_category_guarded (db : DB) (cid : Nat) (c : Category)
    (hc : db.categories.find? (fun k => k.id = cid) = some c) :
    ((0 < (db.posts.filter (fun p => p.category = c.id)).length ∨
      0 < (db.categories.filter (fun k => k.parentCategory = some c.id)).length) →
      (deleteCategory db cid).1 = db ∧ (deleteCategory db cid).2.statusCode = 400) ∧
    ((deleteCategory db cid).2 = DeleteCatResult.deleted →
      (db.posts.filter (fun p => p.category = c.id)).length = 0 ∧
      (db.categories.filter (fun k => k.parentCategory = some c.id)).length = 0 ∧
      (deleteCategory db cid).1 =
        { db with categories := db.categories.filter (fun k => !(k.id = cid)) }) := by
  unfold deleteCategory
  rw [hc]
  dsimp only
  split_ifs with h1 h2
  · refine ⟨fun _ => ⟨rfl, rfl⟩, fun h => ?_⟩
    simp at h
  · refine ⟨fun _ => ⟨rfl, rfl⟩, fun h => ?_⟩
    simp at h
  · refine ⟨fun hor => ?_, fun _ => ⟨?_, ?_, rfl⟩⟩
    · cases hor with
      | inl h => exact absurd h h1
      | inr h => exact absurd h h2
    · omega
    · omega

/-- Witness for C5 at concrete inputs: category 7 has one referencing
post, so its deletion answers 400 and the store is unchanged. -/
theorem C5_witness :
    (deleteCategory sampleDB 7).1 = sampleDB ∧ (deleteCategory sampleDB 7).2.statusCode = 400 :=
  (C5_delete_category_guarded sampleDB 7 sampleCategory (by decide)).1 (Or.inl (by decide))

/-- C6: every paginated list response (public posts, admin posts,
category posts) carries a pagination object with totalPosts equal to
the store's full count of matching documents, totalPages equal to
ceil(total / limit), hasNextPage iff the current page is below
totalPages, hasPrevPage iff the current page is above 1 — and the
returned page never exceeds the limit, so the totals are independent
of the returned page size. -/
theorem C6_pagination_identity (db : List Post) (now : Nat) (q : PostsQuery) (qa : AdminQuery)
    (db2 : DB) (slug : String) (qp ql : Option Nat) :
    (∀ posts pg, getPosts db now q = ListResult.page posts pg →
      pg.totalPosts = (db.filter (publicPostMatches q now)).length ∧
      pg.totalPages = ceilDiv pg.totalPosts pg.limit ∧
      pg.hasNextPage = decide (pg.currentPage < pg.totalPages) ∧
      pg.hasPrevPage = decide (pg.currentPage > 1) ∧
      posts.length ≤ pg.limit) ∧
    (∀ posts pg, getAdminPosts db qa = ListResult.page posts pg →
      pg.totalPosts = (db.filter (adminPostMatches qa)).length ∧
      pg.totalPages = ceilDiv pg.totalPosts pg.limit ∧
      pg.hasNextPage = decide (pg.currentPage < pg.totalPages) ∧
      pg.hasPrevPage = decide (pg.currentPage > 1) ∧
      posts.length ≤ pg.limit) ∧
    (∀ posts pg, getCategoryPosts db2 slug qp ql = CatListResult.page posts pg →
      ∃ cat, db2.categories.find? (fun c => c.slug = slug && c.isActive) = some cat ∧
        pg.totalPosts = (db2.posts.filter (fun p =>
          decide (p.category = cat.id) && decide (p.status = Status.published))).length ∧
        pg.totalPages = ceilDiv pg.totalPosts pg.limit ∧
        pg.hasNextPage = decide (pg.currentPage < pg.totalPages) ∧
        pg.hasPrevPage = decide (pg.currentPage > 1) ∧
        posts.length ≤ pg.limit) := by
  refine ⟨?_, ?_, ?_⟩
  · intro posts pg h
    unfold getPosts at h
    cases hval : validatePostsQuery q <;> rw [hval] at h
    · simp at h
    · simp only [Bool.not_true, Bool.false_eq_true, if_false, ListResult.page.injEq] at h
      obtain ⟨hposts, hpg⟩ := h
      subst hpg
      refine ⟨rfl, rfl, rfl, rfl, ?_⟩
      rw [← hposts, List.length_take]
      exact Nat.min_le_left _ _
  · intro posts pg h
    unfold getAdminPosts at h
    cases hval : validateAdminQuery qa <;> rw [hval] at h
    · simp at h
    · simp only [Bool.not_true, Bool.false_eq_true, if_false, ListResult.page.injEq] at h
      obtain ⟨hposts, hpg⟩ := h
      subst hpg
      refine ⟨rfl, rfl, rfl, rfl, ?_⟩
      rw [← hposts, List.length_take]
      exact Nat.min_le_left _ _
  · intro posts pg h
    unfold getCategoryPosts at h
    cases hfind : db2.categories.find? (fun c => c.slug = slug && c.isActive) <;>
      rw [hfind] at h
    · simp at h
    · simp only [CatListResult.page.injEq] at h
      obtain ⟨hposts, hpg⟩ := h
      subst hpg
      refine ⟨_, rfl, rfl, rfl, rfl, rfl, ?_⟩
      rw [← hposts, List.length_take]
      exact Nat.min_le_left _ _

/-- Witness for C6 at concrete inputs: a one-post store under the
default public listing. -/
theorem C6_witness :
    witnessPagination.totalPosts = ([pubPost].filter (publicPostMatches {} 10)).length ∧
    witnessPagination.totalPages = ceilDiv witnessPagination.totalPosts witnessPagination.limit ∧
    witnessPagination.hasNextPage =
      decide (witnessPagination.currentPage < witnessPagination.totalPages) ∧
    witnessPagination.hasPrevPage = decide (witnessPagination.currentPage > 1) ∧
    [pubPost].length ≤ witnessPagination.limit :=
  (C6_pagination_identity [pubPost] 10 {} {} sampleDB "tech" none none).1
    [pubPost] witnessPagination (by decide)

/-- C7 counterexample: GET /api/categories/:slug/posts with limit 100
— outside the [1, 50] range the claim says every post-list request
enforces — is not rejected: the query executes and answers a page with
limit 100. -/
theorem C7_counterexample :
    getCategoryPosts sampleDB "tech" (some 1) (some 100) =
      CatListResult.page [pubPost]
        { currentPage := 1, totalPages := 1, totalPosts := 1, hasNextPage := false,
          hasPrevPage := false, limit := 100 } := by
  decide

/-- C7 as amended: GET /api/posts and GET /api/posts/admin reject an
out-of-enum sort, a page below 1, or a limit outside [1, 50] with a
validation error before any store query executes, and run the query
exactly when validation passes; GET /api/categories/:slug/posts
performs no such validation — its page and limit are parsed with
defaults and an out-of-range limit is used as supplied. -/
theorem C7_list_validation (db : List Post) (now : Nat) (q : PostsQuery) (qa : AdminQuery)
    (db2 : DB) (slug : String) (qp ql : Option Nat) :
    (validatePostsQuery q = false → getPosts db now q = ListResult.validationFailed) ∧
    (validateAdminQuery qa = false → getAdminPosts db qa = ListResult.validationFailed) ∧
    (validatePostsQuery q = true → ∃ posts pg, getPosts db now q = ListResult.page posts pg) ∧
    (validateAdminQuery qa = true →
      ∃ posts pg, getAdminPosts db qa = ListResult.page posts pg) ∧
    (getCategoryPosts db2 slug qp ql = CatListResult.notFound ∨
      ∃ posts pg, getCategoryPosts db2 slug qp ql = CatListResult.page posts pg ∧
        pg.limit = jsOrDefault ql 10) := by
  refine ⟨?_, ?_, ?_, ?_, ?_⟩
  · intro hv
    unfold getPosts
    rw [hv]
    rfl
  · intro hv
    unfold getAdminPosts
    rw [hv]
    rfl
  · intro hv
    unfold getPosts
    rw [hv]
    exact ⟨_, _, rfl⟩
  · intro hv
    unfold getAdminPosts
    rw [hv]
    exact ⟨_, _, rfl⟩
  · unfold getCategoryPosts
    cases hfind : db2.categories.find? (fun c => c.slug = slug && c.isActive)
    · exact Or.inl rfl
    · exact Or.inr ⟨_, _, rfl, rfl⟩

/-- Witness for the amended C7 at concrete inputs: limit 100 fails the
public validator; sort "popular" fails the admin validator; the
category route answers a page whose limit is the supplied 100. -/
theorem C7_witness :
    getPosts [pubPost] 10 { limit := some 100 } = ListResult.validationFailed ∧
    getAdminPosts [pubPost] { sort := some "popular" } = ListResult.validationFailed ∧
    (getCategoryPosts sampleDB "tech" (some 1) (some 100) = CatListResult.notFound ∨
      ∃ posts pg, getCategoryPosts sampleDB "tech" (some 1) (some 100) =
          CatListResult.page posts pg ∧ pg.limit = jsOrDefault (some 100) 10) :=
  ⟨(C7_list_validation [pubPost] 10 { limit := some 100 } { sort := some "popular" }
      sampleDB "tech" (some 1) (some 100)).1 (by decide),
   (C7_list_validation [pubPost] 10 { limit := some 100 } { sort := some "popular" }
      sampleDB "tech" (some 1) (some 100)).2.1 (by decide),
   (C7_list_validation [pubPost] 10 { limit := some 100 } { sort := some "popular" }
      sampleDB "tech" (some 1) (some 100)).2.2.2.2⟩

theorem mem_insertBy (le : α → α → Bool) (x a : α) (l : List α) :
    a ∈ insertBy le x l ↔ a = x ∨ a ∈ l := by
  induction l with
  | nil => simp [insertBy]
  | cons y ys ih =>
    by_cases hle : le x y
    · simp [insertBy, hle]
    · simp [insertBy, hle, ih]
      tauto

theorem mem_sortBy (le : α → α → Bool) (a : α) (l : List α) :
    a ∈ sortBy le l ↔ a ∈ l := by
  induction l with
  | nil => simp [sortBy]
  | cons y ys ih =>
    simp [sortBy, mem_insertBy, ih]

/-- C9: POST /api/comments stores every new comment with isApproved =
false, and GET /api/comments/:postId returns exactly the approved
comments of the post — so a newly created comment is never publicly
visible before explicit approval. -/
theorem C9_comment_approval_gate (db : List Comment) (b : NewCommentBody) (newId now : Nat) :
    (∀ db' c, createComment db b newId now = (db', CreateCommentResult.created c) →
      c.isApproved = false ∧ db' = db ++ [c] ∧
      ∀ pid, getComments db' pid = getComments db pid) ∧
    (∀ pid k, k ∈ getComments db pid → k.postId = pid ∧ k.isApproved = true) ∧
    (∀ pid k, k ∈ db → k.postId = pid → k.isApproved = true → k ∈ getComments db pid) := by
  refine ⟨?_, ?_, ?_⟩
  · intro db' c h
    unfold createComment at h
    cases hpid : b.postId <;> rw [hpid] at h
    · simp at h
    · cases hreq : (b.author = "" || b.email = "" || b.content = "") <;> rw [hreq] at h
      · simp only [Bool.false_eq_true, if_false, Prod.mk.injEq] at h
        obtain ⟨hdb, hc⟩ := h
        subst hdb
        simp only [CreateCommentResult.created.injEq] at hc
        subst hc
        refine ⟨rfl, rfl, ?_⟩
        intro pid
        simp [getComments, List.filter_append]
      · simp at h
  · intro pid k hk
    rw [getComments, mem_sortBy] at hk
    have := List.mem_filter.mp hk
    simp at this
    exact ⟨this.2.1, this.2.2⟩
  · intro pid k hk hpid happ
    rw [getComments, mem_sortBy]
    refine List.mem_filter.mpr ⟨hk, ?_⟩
    simp [hpid, happ]

/-- Witness for C9 at concrete inputs: the created comment is
unapproved and invisible to the public listing of its post. -/
theorem C9_witness :
    witComment.isApproved = false ∧ getComments [witComment] 2 = getComments [] 2 :=
  ⟨((C9_comment_approval_gate []
      { postId := some 2, author := "Ann", email := "a@b.c", content := "hi" } 5 10).1
      [witComment] witComment (by decide)).1,
   (((C9_comment_approval_gate []
      { postId := some 2, author := "Ann", email := "a@b.c", content := "hi" } 5 10).1
      [witComment] witComment (by decide)).2.2) 2⟩

theorem find_map_inc (l : List Post) (id : Nat) (p : Post)
    (h : l.find? (fun x => x.id = id) = some p) :
    (l.map (fun q => if q.id = id then { q with likes := q.likes + 1 } else q)).find?
      (fun x => x.id = id) = some { p with likes := p.likes + 1 } := by
  induction l with
  | nil => simp at h
  | cons q rest ih =>
    simp only [List.map_cons]
    by_cases hq : q.id = id
    · rw [List.find?_cons_of_pos _ (by simp [hq])] at h
      rw [if_pos hq, List.find?_cons_of_pos _ (by simp [hq])]
      simp at h
      rw [h]
    · rw [List.find?_cons_of_neg _ (by simp [hq])] at h
      rw [if_neg hq, List.find?_cons_of_neg _ (by simp [hq])]
      exact ih h

/-- C10: a successful POST /api/posts/:id/like increments the stored
counter of the liked post by exactly one, leaves every other post
untouched, and answers with the pre-fetch counter plus one. -/
theorem C10_like_increment (db : List Post) (id : Nat) (p : Post)
    (h : db.find? (fun x => x.id = id) = some p) :
    (likePost db id).2 = LikeResult.liked (p.likes + 1) ∧
    (likePost db id).1.find? (fun x => x.id = id) = some { p with likes := p.likes + 1 } ∧
    ∀ q ∈ db, q.id ≠ id → q ∈ (likePost db id).1 := by
  unfold likePost
  rw [h]
  refine ⟨rfl, ?_, ?_⟩
  · exact find_map_inc db id p h
  · intro q hq hne
    dsimp only
    refine List.mem_map.mpr ⟨q, hq, ?_⟩
    simp [hne]

/-- Witness for C10 at concrete inputs: liking the sample post stores
likes = 1 and answers likes = 1. -/
theorem C10_witness :
    (likePost [pubPost] 1).2 = LikeResult.liked (pubPost.likes + 1) ∧
    (likePost [pubPost] 1).1.find? (fun x => x.id = 1) =
      some { pubPost with likes := pubPost.likes + 1 } :=
  ⟨(C10_like_increment [pubPost] 1 pubPost (by decide)).1,
   (C10_like_increment [pubPost] 1 pubPost (by decide)).2.1⟩
